import Mathlib

/-!
# Verification of the hazmate batch classification pipeline

Shallow embedding of the token-budget-aware batch classification core of the
`hazmate` repository:

* `src/hazmate/utils/tokens.py`   — `estimate_token_count`
* `src/hazmate/utils/text.py`     — `clean_text` (= `textwrap.dedent` + `str.strip`)
* `src/hazmate/input_datasets/input_items.py` — `HazmatInputItem`,
  `get_all_text_content_as_xml`
* `src/hazmate/agent/predictions.py`   — `HazmatPrediction`
* `src/hazmate/agent/hazmat_traits.py` — `HazmatTrait`
* `src/hazmate/agent/labeled_items.py` — `HazmatLabeledItem`,
  `from_input_and_prediction`, the `input_item` / `prediction` properties
* `src/hazmate/agent/agent.py`    — `get_user_prompt_for_batch`,
  `predict_batch`, `classify_batch`
* `src/hazmate/agent/__main__.py` — `_extract_batch`, `_process_batch`, and the
  driver loop of `main` (modelled at `parallel_batches = 1`, the default, where
  the asyncio loop dispatches exactly one batch at a time and awaits it).

Python strings are modelled as `List Char` (`len` counts code points, as in
Python).  Python `dict` comprehensions are modelled by association lists with
last-value-wins lookup and first-occurrence key order, matching CPython
semantics.  Fallible code returns `Except`; the external model-run capability
is an oracle parameter (`Option (List HazmatPrediction)`: `none` models the
capability raising an exception).
-/

/-- Python strings, as lists of code points (`len` = `List.length`). -/
abbrev PyStr := List Char

/-- Approximation mode of `estimate_token_count` (`tokens.py`). -/
inductive ApproximationMode where
  | underestimate
  | overestimate
deriving DecidableEq, Repr

/-- `estimate_token_count` from `src/hazmate/utils/tokens.py`:
`math.floor(len(text) / 5)` in underestimate mode and
`math.ceil(len(text) / 3)` in overestimate mode, written with natural-number
division (`⌈n/3⌉ = (n + 2) / 3` on naturals; proved equal to the rational
floor/ceil below). -/
def estimate_token_count (text : PyStr)
    (approximation_mode : ApproximationMode := .overestimate) : Nat :=
  match approximation_mode with
  | .underestimate => text.length / 5
  | .overestimate => (text.length + 2) / 3

/-- C8: For every text string, `estimate_token_count` returns exactly
`ceil(len(text) / 3)` in overestimate mode and exactly `floor(len(text) / 5)`
in underestimate mode (floor and ceiling taken over the rationals, as in the
spec's formulas); the function is a pure total Lean function, so it has no
error conditions. -/
theorem c8_estimate_token_count_exact (text : PyStr) :
    ((estimate_token_count text .overestimate : ℤ) = ⌈(text.length : ℚ) / 3⌉) ∧
    ((estimate_token_count text .underestimate : ℤ) = ⌊(text.length : ℚ) / 5⌋) := by
  constructor
  · show ((((text.length + 2) / 3 : ℕ) : ℤ) = ⌈(text.length : ℚ) / 3⌉)
    have h1 : text.length ≤ 3 * ((text.length + 2) / 3) := by omega
    have h2 : 3 * ((text.length + 2) / 3) ≤ text.length + 2 := by omega
    have q1 : (text.length : ℚ) ≤ 3 * (((text.length + 2) / 3 : ℕ) : ℚ) := by
      exact_mod_cast h1
    have q2 : 3 * (((text.length + 2) / 3 : ℕ) : ℚ) ≤ (text.length : ℚ) + 2 := by
      exact_mod_cast h2
    rw [eq_comm, Int.ceil_eq_iff]
    refine ⟨?_, ?_⟩
    · rw [lt_div_iff (by norm_num : (0 : ℚ) < 3)]
      rw [Int.cast_natCast]
      linarith
    · rw [div_le_iff (by norm_num : (0 : ℚ) < 3)]
      rw [Int.cast_natCast]
      linarith
  · show (((text.length / 5 : ℕ) : ℤ) = ⌊(text.length : ℚ) / 5⌋)
    have h1 : 5 * (text.length / 5) ≤ text.length := by omega
    have h2 : text.length < 5 * (text.length / 5) + 5 := by omega
    have q1 : 5 * ((text.length / 5 : ℕ) : ℚ) ≤ (text.length : ℚ) := by
      exact_mod_cast h1
    have q2 : (text.length : ℚ) < 5 * ((text.length / 5 : ℕ) : ℚ) + 5 := by
      exact_mod_cast h2
    rw [eq_comm, Int.floor_eq_iff]
    refine ⟨?_, ?_⟩
    · rw [le_div_iff (by norm_num : (0 : ℚ) < 5)]
      rw [Int.cast_natCast]
      linarith
    · rw [div_lt_iff (by norm_num : (0 : ℚ) < 5)]
      rw [Int.cast_natCast]
      linarith

/-! ## Data model (`hazmat_traits.py`, `predictions.py`, `input_items.py`, `labeled_items.py`) -/

/-- `KnownHazmatTrait` from `src/hazmate/agent/hazmat_traits.py`: a closed
enumeration of known hazard categories. -/
inductive KnownHazmatTrait where
  | flammable
  | explosive
  | oxidizing
  | corrosive
  | compressed_gas
  | toxic
  | carcinogenic
  | irritant
  | sensitizing
  | mutagenic
  | reproductive_toxicity
  | aquatic_toxicity
  | ozone_depletion
  | radioactive
  | infectious
deriving DecidableEq, Repr

/-- `HazmatTrait = KnownHazmatTrait | OtherHazmatTrait`: tagged union of a
known trait and the open-ended `OtherHazmatTrait` carrying a free string. -/
inductive HazmatTrait where
  | known (trait : KnownHazmatTrait)
  | other (trait : PyStr)
deriving DecidableEq, Repr

/-- `HazmatPrediction` from `src/hazmate/agent/predictions.py`. -/
structure HazmatPrediction where
  item_id : PyStr
  is_hazmat : Bool
  traits : List HazmatTrait := []
  reason : PyStr
deriving DecidableEq, Repr

/-- `InputDatasetAttribute` from `src/hazmate/input_datasets/input_items.py`. -/
structure InputDatasetAttribute where
  id : PyStr
  name : PyStr
  value_name : PyStr
deriving DecidableEq, Repr

/-- `InputDatasetMainFeature` from `src/hazmate/input_datasets/input_items.py`. -/
structure InputDatasetMainFeature where
  text : PyStr
  type : PyStr
deriving DecidableEq, Repr

/-- `HazmatInputItem` from `src/hazmate/input_datasets/input_items.py`
(`permalink` is an optional URL, modelled as an optional string). -/
structure HazmatInputItem where
  item_id : PyStr
  name : PyStr
  domain_id : PyStr
  family_name : PyStr
  permalink : Option PyStr := none
  description : Option PyStr := none
  short_description : Option PyStr := none
  keywords : Option PyStr := none
  attributes : List InputDatasetAttribute := []
  main_features : List InputDatasetMainFeature := []
deriving DecidableEq, Repr

/-- `HazmatLabeledItem` from `src/hazmate/agent/labeled_items.py`: input data
fields plus prediction fields, keyed by the shared `item_id`. -/
structure HazmatLabeledItem where
  item_id : PyStr
  name : PyStr
  domain_id : PyStr
  family_name : PyStr
  description : Option PyStr := none
  short_description : Option PyStr := none
  keywords : Option PyStr := none
  is_hazmat : Bool
  traits : List HazmatTrait := []
  reason : PyStr
deriving DecidableEq, Repr

/-- `MismatchedItemIdsError` from `src/hazmate/agent/labeled_items.py`,
carrying the two mismatched ids. -/
structure MismatchedItemIdsError where
  input_item_id : PyStr
  prediction_item_id : PyStr
deriving DecidableEq, Repr

namespace HazmatLabeledItem

/-- The record built in the success branch of `from_input_and_prediction`. -/
def combine_input_and_prediction (input_item : HazmatInputItem)
    (prediction : HazmatPrediction) : HazmatLabeledItem :=
  { item_id := input_item.item_id
    name := input_item.name
    domain_id := input_item.domain_id
    family_name := input_item.family_name
    description := input_item.description
    short_description := input_item.short_description
    keywords := input_item.keywords
    is_hazmat := prediction.is_hazmat
    traits := prediction.traits
    reason := prediction.reason }

/-- `HazmatLabeledItem.from_input_and_prediction`: raises
`MismatchedItemIdsError` when the item ids differ, otherwise combines the
input fields and the prediction fields. -/
def from_input_and_prediction (input_item : HazmatInputItem)
    (prediction : HazmatPrediction) :
    Except MismatchedItemIdsError HazmatLabeledItem :=
  if input_item.item_id ≠ prediction.item_id then
    .error ⟨input_item.item_id, prediction.item_id⟩
  else
    .ok (combine_input_and_prediction input_item prediction)

/-- The `input_item` property of `HazmatLabeledItem`: reconstructs a
`HazmatInputItem` from the stored fields.  Note that the source passes only
`item_id`, `name`, `domain_id`, `family_name`, `description` and
`short_description` to the constructor — `keywords` is left at its default
(`None`), as are `permalink`, `attributes` and `main_features`. -/
def input_item (self : HazmatLabeledItem) : HazmatInputItem :=
  { item_id := self.item_id
    name := self.name
    domain_id := self.domain_id
    family_name := self.family_name
    description := self.description
    short_description := self.short_description }

/-- The `prediction` property of `HazmatLabeledItem`. -/
def prediction (self : HazmatLabeledItem) : HazmatPrediction :=
  { item_id := self.item_id
    is_hazmat := self.is_hazmat
    traits := self.traits
    reason := self.reason }

end HazmatLabeledItem

/-! ## C2: the `(InputItem, Prediction) → LabeledItem` round trip -/

/-- A concrete input item whose `keywords` field is set, used to exercise the
labeled-item round trip. -/
def kwInputItem : HazmatInputItem :=
  { item_id := "MLB100".data
    name := "Acetone 1L".data
    domain_id := "MLB-CLEANERS".data
    family_name := "Solvents".data
    description := some "Pure acetone solvent".data
    short_description := some "Acetone".data
    keywords := some "acetone solvent flammable".data }

/-- A prediction for `kwInputItem` carrying the same `item_id`. -/
def kwPrediction : HazmatPrediction :=
  { item_id := "MLB100".data
    is_hazmat := true
    traits := [.known .flammable]
    reason := "Acetone is flammable".data }

/-- C2 (counterexample): the round trip is not the identity on the fields the
labeled item carries.  For a matched pair whose input has non-empty
`keywords`, reading back `.input_item` loses the keywords (the reconstructed
input item has `keywords = none`), so the read-back input item differs from
the original. -/
theorem c2_counterexample :
    ∃ l, HazmatLabeledItem.from_input_and_prediction kwInputItem kwPrediction =
        Except.ok l ∧
      l.input_item.keywords = none ∧
      kwInputItem.keywords = some "acetone solvent flammable".data ∧
      l.input_item ≠ kwInputItem := by
  refine ⟨{ item_id := "MLB100".data
            name := "Acetone 1L".data
            domain_id := "MLB-CLEANERS".data
            family_name := "Solvents".data
            description := some "Pure acetone solvent".data
            short_description := some "Acetone".data
            keywords := some "acetone solvent flammable".data
            is_hazmat := true
            traits := [.known .flammable]
            reason := "Acetone is flammable".data }, ?_, rfl, rfl, ?_⟩
  · rfl
  · decide

/-- C2 (amended): for every input item `i` and prediction `p` with matching
`item_id`s, `from_input_and_prediction` succeeds and reading back
`.input_item` restores every input field the labeled item carries *except*
`keywords`, which always reads back as `None`; reading back `.prediction`
restores `p` exactly.  With mismatched `item_id`s it always raises
`MismatchedItemIdsError` (carrying both ids). -/
theorem c2_round_trip_modulo_keywords (i : HazmatInputItem)
    (p : HazmatPrediction) :
    (i.item_id = p.item_id →
      ∃ l, HazmatLabeledItem.from_input_and_prediction i p = Except.ok l ∧
        l.input_item.item_id = i.item_id ∧
        l.input_item.name = i.name ∧
        l.input_item.domain_id = i.domain_id ∧
        l.input_item.family_name = i.family_name ∧
        l.input_item.description = i.description ∧
        l.input_item.short_description = i.short_description ∧
        l.input_item.keywords = none ∧
        l.prediction = p) ∧
    (i.item_id ≠ p.item_id →
      HazmatLabeledItem.from_input_and_prediction i p =
        Except.error ⟨i.item_id, p.item_id⟩) := by
  constructor
  · intro h
    refine ⟨{ item_id := i.item_id
              name := i.name
              domain_id := i.domain_id
              family_name := i.family_name
              description := i.description
              short_description := i.short_description
              keywords := i.keywords
              is_hazmat := p.is_hazmat
              traits := p.traits
              reason := p.reason }, ?_, rfl, rfl, rfl, rfl, rfl, rfl, rfl, ?_⟩
    · rw [HazmatLabeledItem.from_input_and_prediction, if_neg (by simpa using h)]
      rfl
    · simp only [HazmatLabeledItem.prediction, h]
  · intro h
    rw [HazmatLabeledItem.from_input_and_prediction, if_pos h]

/-- Witness for C2 (amended): both branches exercised at concrete inputs. -/
theorem c2_round_trip_modulo_keywords_witness :
    (∃ l, HazmatLabeledItem.from_input_and_prediction kwInputItem kwPrediction =
        Except.ok l ∧
      l.input_item.item_id = kwInputItem.item_id ∧
      l.input_item.name = kwInputItem.name ∧
      l.input_item.domain_id = kwInputItem.domain_id ∧
      l.input_item.family_name = kwInputItem.family_name ∧
      l.input_item.description = kwInputItem.description ∧
      l.input_item.short_description = kwInputItem.short_description ∧
      l.input_item.keywords = none ∧
      l.prediction = kwPrediction) ∧
    HazmatLabeledItem.from_input_and_prediction
        { kwInputItem with item_id := "MLB999".data } kwPrediction =
      Except.error ⟨"MLB999".data, "MLB100".data⟩ :=
  ⟨(c2_round_trip_modulo_keywords kwInputItem kwPrediction).1 (by decide),
   (c2_round_trip_modulo_keywords
       { kwInputItem with item_id := "MLB999".data } kwPrediction).2 (by decide)⟩

/-! ## `predict_batch` and the strict mismatch policy (`agent.py`) -/

/-- `MismatchedPredictionsError` from `src/hazmate/agent/agent.py`: carries
the set of requested input ids and the set of returned prediction ids. -/
structure MismatchedPredictionsError where
  input_ids : Finset PyStr
  prediction_ids : Finset PyStr
deriving DecidableEq

/-- The id-reconciliation step of `HazmatAgent.predict_batch`
(`agent.py`, lines 305–314).  The external model run is an input
(`predictions`, the sequence the model returned); the function checks the
id sets and either raises `MismatchedPredictionsError` or returns the
predictions unchanged. -/
def predict_batch (items : List HazmatInputItem)
    (predictions : List HazmatPrediction)
    (allow_mismatched_predictions : Bool := false) :
    Except MismatchedPredictionsError (List HazmatPrediction) :=
  let item_ids := (items.map (·.item_id)).toFinset
  let prediction_ids := (predictions.map (·.item_id)).toFinset
  if ¬allow_mismatched_predictions ∧ prediction_ids ≠ item_ids then
    .error ⟨item_ids, prediction_ids⟩
  else
    .ok predictions

/-- C6: under the strict policy (`allow_mismatched_predictions = False`),
`predict_batch` raises `MismatchedPredictionsError` iff the set of returned
prediction ids differs from the set of sent item ids; any raised error
carries exactly the two id sets; and when the sets agree the predictions are
returned unchanged. -/
theorem c6_predict_batch_strict_mismatch (items : List HazmatInputItem)
    (predictions : List HazmatPrediction) :
    ((∃ e, predict_batch items predictions false = .error e) ↔
      (predictions.map (·.item_id)).toFinset ≠
        (items.map (·.item_id)).toFinset) ∧
    (∀ e, predict_batch items predictions false = .error e →
      e.input_ids = (items.map (·.item_id)).toFinset ∧
      e.prediction_ids = (predictions.map (·.item_id)).toFinset) ∧
    ((predictions.map (·.item_id)).toFinset =
        (items.map (·.item_id)).toFinset →
      predict_batch items predictions false = .ok predictions) := by
  by_cases hc : (predictions.map (·.item_id)).toFinset =
      (items.map (·.item_id)).toFinset
  · have hok : predict_batch items predictions false = .ok predictions := by
      rw [predict_batch, if_neg]
      simp [hc]
    refine ⟨?_, ?_, fun _ => hok⟩
    · simp only [hok]
      constructor
      · rintro ⟨e, he⟩
        exact absurd he (by simp)
      · intro h
        exact absurd hc h
    · intro e he
      rw [hok] at he
      exact absurd he (by simp)
  · have herr : predict_batch items predictions false =
        .error ⟨(items.map (·.item_id)).toFinset,
                (predictions.map (·.item_id)).toFinset⟩ := by
      rw [predict_batch, if_pos]
      exact ⟨by simp, hc⟩
    refine ⟨⟨fun _ => hc, fun _ => ⟨_, herr⟩⟩, ?_, fun h => absurd h hc⟩
    intro e he
    rw [herr] at he
    cases he
    exact ⟨rfl, rfl⟩

/-- Witness for C6: both the mismatch branch (one item sent, no predictions
returned) and the agreement branch (exact echo) at concrete inputs. -/
theorem c6_predict_batch_strict_mismatch_witness :
    (([] : List HazmatPrediction).map (·.item_id)).toFinset ≠
      (([kwInputItem]).map (·.item_id)).toFinset ∧
    (∃ e, predict_batch [kwInputItem] [] false = .error e) ∧
    (([kwPrediction]).map (·.item_id)).toFinset =
      (([kwInputItem]).map (·.item_id)).toFinset ∧
    predict_batch [kwInputItem] [kwPrediction] false = .ok [kwPrediction] :=
  ⟨by decide,
   (c6_predict_batch_strict_mismatch [kwInputItem] []).1.mpr (by decide),
   by decide,
   (c6_predict_batch_strict_mismatch [kwInputItem] [kwPrediction]).2.2
     (by decide)⟩

/-! ## Python `dict` semantics

`classify_batch` builds `inputs_map` / `predictions_map` with dict
comprehensions.  A CPython dict built from a sequence of `(key, value)`
pairs keeps keys in first-occurrence order and, for a repeated key, the
last value inserted. -/

/-- Helper for `pyDictKeys`: keys not yet seen, in first-occurrence order. -/
def pyDictKeysAux (seen : List PyStr) : List PyStr → List PyStr
  | [] => []
  | k :: ks =>
    if k ∈ seen then pyDictKeysAux seen ks
    else k :: pyDictKeysAux (k :: seen) ks

/-- Key order of a CPython dict built by inserting `keys` in order:
first occurrence of each key, duplicates dropped. -/
def pyDictKeys (l : List PyStr) : List PyStr := pyDictKeysAux [] l

/-- Lookup in a CPython dict built from `pairs`: the value of the *last*
pair with the given key (later insertions overwrite earlier ones). -/
def pyDictGet {α : Type} (pairs : List (PyStr × α)) (k : PyStr) : Option α :=
  ((pairs.filter (fun q => q.1 == k)).getLast?).map Prod.snd

theorem mem_pyDictKeysAux {a : PyStr} :
    ∀ {l seen : List PyStr}, a ∈ pyDictKeysAux seen l ↔ a ∈ l ∧ a ∉ seen
  | [], seen => by simp [pyDictKeysAux]
  | k :: ks, seen => by
    rw [pyDictKeysAux]
    by_cases hks : k ∈ seen
    · rw [if_pos hks, mem_pyDictKeysAux]
      constructor
      · rintro ⟨h1, h2⟩
        exact ⟨List.mem_cons_of_mem _ h1, h2⟩
      · rintro ⟨h1, h2⟩
        rcases List.mem_cons.mp h1 with rfl | h1
        · exact absurd hks h2
        · exact ⟨h1, h2⟩
    · rw [if_neg hks]
      by_cases hak : a = k
      · subst hak
        simp [hks]
      · simp only [List.mem_cons, hak, false_or]
        rw [mem_pyDictKeysAux]
        simp [hak]

theorem mem_pyDictKeys {a : PyStr} {l : List PyStr} :
    a ∈ pyDictKeys l ↔ a ∈ l := by
  rw [pyDictKeys, mem_pyDictKeysAux]
  simp

theorem nodup_pyDictKeysAux :
    ∀ (l seen : List PyStr), (pyDictKeysAux seen l).Nodup
  | [], _ => by simp [pyDictKeysAux]
  | k :: ks, seen => by
    rw [pyDictKeysAux]
    by_cases hks : k ∈ seen
    · rw [if_pos hks]
      exact nodup_pyDictKeysAux ks seen
    · rw [if_neg hks]
      refine List.nodup_cons.mpr ⟨?_, nodup_pyDictKeysAux ks (k :: seen)⟩
      intro hmem
      exact (mem_pyDictKeysAux.mp hmem).2 (List.mem_cons_self _ _)

theorem nodup_pyDictKeys (l : List PyStr) : (pyDictKeys l).Nodup :=
  nodup_pyDictKeysAux l []

theorem pyDictKeysAux_eq_self :
    ∀ {l seen : List PyStr}, l.Nodup → (∀ x ∈ l, x ∉ seen) →
      pyDictKeysAux seen l = l
  | [], _, _, _ => rfl
  | k :: ks, seen, h, hd => by
    rw [pyDictKeysAux, if_neg (hd k (List.mem_cons_self _ _))]
    rw [pyDictKeysAux_eq_self (List.nodup_cons.mp h).2]
    intro x hx
    intro hmem
    rcases List.mem_cons.mp hmem with rfl | hmem
    · exact (List.nodup_cons.mp h).1 hx
    · exact hd x (List.mem_cons_of_mem _ hx) hmem

theorem pyDictKeys_eq_self_of_nodup {l : List PyStr} (h : l.Nodup) :
    pyDictKeys l = l :=
  pyDictKeysAux_eq_self h (by simp)

/-- Looking up a dict built as `{key(x): x for x in l}`: the result is the
last element of `l` whose key is `k`. -/
theorem pyDictGet_map {α : Type} (key : α → PyStr) (l : List α) (k : PyStr) :
    pyDictGet (l.map (fun x => (key x, x))) k =
      (l.filter (fun x => key x == k)).getLast? := by
  rw [pyDictGet, List.filter_map]
  have hcomp : ((fun (q : PyStr × α) => q.1 == k) ∘ fun x => (key x, x)) =
      (fun x => key x == k) := rfl
  rw [hcomp, List.getLast?_map, Option.map_map]
  cases (l.filter (fun x => key x == k)).getLast? <;> rfl

theorem pyDictGet_map_isSome_iff {α : Type} (key : α → PyStr) (l : List α)
    (k : PyStr) :
    (pyDictGet (l.map (fun x => (key x, x))) k).isSome ↔ k ∈ l.map key := by
  rw [pyDictGet_map]
  rw [List.getLast?_isSome]
  constructor
  · intro h
    obtain ⟨x, hx⟩ := List.exists_mem_of_ne_nil _ h
    have := List.mem_filter.mp hx
    exact List.mem_map.mpr ⟨x, this.1, by simpa using this.2⟩
  · intro h
    obtain ⟨x, hxl, hxk⟩ := List.mem_map.mp h
    exact List.ne_nil_of_mem (List.mem_filter.mpr ⟨hxl, by simpa using hxk⟩)

theorem pyDictGet_map_eq_some {α : Type} {key : α → PyStr} {l : List α}
    {k : PyStr} {v : α} (h : pyDictGet (l.map (fun x => (key x, x))) k = some v) :
    v ∈ l ∧ key v = k := by
  rw [pyDictGet_map] at h
  obtain ⟨hne, hv⟩ := List.mem_getLast?_eq_getLast (x := v) h
  have hmem : v ∈ l.filter (fun x => key x == k) := hv ▸ List.getLast_mem hne
  have := List.mem_filter.mp hmem
  exact ⟨this.1, by simpa using this.2⟩

/-! ## `classify_batch` (`agent.py`) -/

/-- The errors `classify_batch` can propagate: the id-set check of
`predict_batch` and the id check of `from_input_and_prediction`. -/
inductive AgentError where
  | mismatchedPredictions (e : MismatchedPredictionsError)
  | mismatchedItemIds (e : MismatchedItemIdsError)
deriving DecidableEq

/-- The matched `(input, prediction)` pairs built by `classify_batch`:
iterate over the keys of `inputs_map` (first-occurrence order of the batch's
item ids), keep the ids present in `predictions_map`, and look both dicts up
(last pair wins for a repeated id).  The lookup in `inputs_map` always
succeeds because the keys are exactly the batch's item ids. -/
def matchedPairs (items : List HazmatInputItem)
    (predictions : List HazmatPrediction) :
    List (HazmatInputItem × HazmatPrediction) :=
  let inputs_map := items.map (fun i => (i.item_id, i))
  let predictions_map := predictions.map (fun p => (p.item_id, p))
  (pyDictKeys (items.map (·.item_id))).filterMap (fun item_id =>
    match pyDictGet inputs_map item_id, pyDictGet predictions_map item_id with
    | some i, some p => some (i, p)
    | _, _ => none)

/-- `HazmatAgent.classify_batch` (`agent.py`, lines 343–375), with the
external model run as the `predictions` input: run the `predict_batch`
id-set check, then combine each matched pair with
`from_input_and_prediction`. -/
def classify_batch (items : List HazmatInputItem)
    (predictions : List HazmatPrediction)
    (allow_mismatched_predictions : Bool := false) :
    Except AgentError (List HazmatLabeledItem) :=
  match predict_batch items predictions allow_mismatched_predictions with
  | .error e => .error (.mismatchedPredictions e)
  | .ok preds =>
    (matchedPairs items preds).mapM (fun ip =>
      (HazmatLabeledItem.from_input_and_prediction ip.1 ip.2).mapError
        AgentError.mismatchedItemIds)

theorem mem_matchedPairs {items : List HazmatInputItem}
    {predictions : List HazmatPrediction}
    {ip : HazmatInputItem × HazmatPrediction}
    (h : ip ∈ matchedPairs items predictions) :
    ip.1 ∈ items ∧ ip.2 ∈ predictions ∧ ip.1.item_id = ip.2.item_id ∧
    (predictions.filter (fun p => p.item_id == ip.1.item_id)).getLast? =
      some ip.2 ∧
    (items.filter (fun i => i.item_id == ip.1.item_id)).getLast? = some ip.1 := by
  rw [matchedPairs] at h
  obtain ⟨id, _hid, hpick⟩ := List.mem_filterMap.mp h
  rcases heqi : pyDictGet (items.map (fun i => (i.item_id, i))) id with _ | i <;>
    rcases heqp :
        pyDictGet (predictions.map (fun p => (p.item_id, p))) id with _ | p <;>
    rw [heqi, heqp] at hpick
  · exact absurd hpick (by simp)
  · exact absurd hpick (by simp)
  · exact absurd hpick (by simp)
  obtain rfl : ip = (i, p) := by simpa using hpick.symm
  obtain ⟨hi_mem, hi_key⟩ := pyDictGet_map_eq_some heqi
  obtain ⟨hp_mem, hp_key⟩ := pyDictGet_map_eq_some heqp
  refine ⟨hi_mem, hp_mem, by rw [hi_key, hp_key], ?_, ?_⟩
  · rw [← pyDictGet_map (fun p : HazmatPrediction => p.item_id)]
    simp only [hi_key, heqp]
  · rw [← pyDictGet_map (fun i : HazmatInputItem => i.item_id)]
    simp only [hi_key, heqi]

/-- Auxiliary: a `filterMap` whose success cases are characterised by a
boolean predicate, mapped back by `g`, is a `filter`. -/
theorem map_filterMap_eq_filter {α β : Type} (f : α → Option β) (g : β → α)
    (p : α → Bool) :
    ∀ l : List α, (∀ a ∈ l, (f a).isSome = p a) →
      (∀ a ∈ l, ∀ b, f a = some b → g b = a) →
      (l.filterMap f).map g = l.filter p
  | [], _, _ => rfl
  | a :: l, h1, h2 => by
    rw [List.filterMap_cons, List.filter_cons]
    rcases hfa : f a with _ | b
    · have hpa : p a = false := by
        have := h1 a (by simp)
        rw [hfa] at this
        simpa using this.symm
      rw [hpa]
      exact map_filterMap_eq_filter f g p l (fun x hx => h1 x (by simp [hx]))
        (fun x hx => h2 x (by simp [hx]))
    · have hpa : p a = true := by
        have := h1 a (by simp)
        rw [hfa] at this
        simpa using this.symm
      rw [hpa]
      simp only [List.map_cons, if_true]
      rw [h2 a (by simp) b hfa,
        map_filterMap_eq_filter f g p l (fun x hx => h1 x (by simp [hx]))
          (fun x hx => h2 x (by simp [hx]))]

/-- Auxiliary: `mapM` over `Except` succeeds pointwise. -/
theorem mapM_ok_of_forall {α β ε : Type} (f : α → Except ε β) (g : α → β) :
    ∀ l : List α, (∀ x ∈ l, f x = .ok (g x)) → l.mapM f = .ok (l.map g)
  | [], _ => rfl
  | x :: l, h => by
    rw [List.mapM_cons, h x (by simp),
      mapM_ok_of_forall f g l (fun y hy => h y (by simp [hy]))]
    rfl

/-- The first ids of the matched pairs: the batch's (deduplicated) ids
filtered to those for which a prediction was returned. -/
theorem matchedPairs_map_fst_id (items : List HazmatInputItem)
    (predictions : List HazmatPrediction) :
    (matchedPairs items predictions).map (fun ip => ip.1.item_id) =
      (pyDictKeys (items.map (·.item_id))).filter
        (fun id => decide (id ∈ predictions.map (·.item_id))) := by
  rw [matchedPairs]
  apply map_filterMap_eq_filter
  · intro id hid
    rw [mem_pyDictKeys] at hid
    rcases heqi : pyDictGet (items.map (fun i => (i.item_id, i))) id with _ | i
    · exact absurd ((pyDictGet_map_isSome_iff (·.item_id) items id).mpr hid)
        (by simp [heqi])
    · rcases heqp :
          pyDictGet (predictions.map (fun p => (p.item_id, p))) id with _ | p
      · have hnm : ¬ id ∈ predictions.map (·.item_id) := fun hmem =>
          absurd ((pyDictGet_map_isSome_iff (·.item_id) predictions id).mpr hmem)
            (by simp [heqp])
        rw [heqi, heqp]
        simp [hnm]
      · have hm : id ∈ predictions.map (·.item_id) :=
          (pyDictGet_map_isSome_iff (·.item_id) predictions id).mp
            (by simp [heqp])
        rw [heqi, heqp]
        simp [hm]
  · intro id _hid ip hip
    rcases heqi : pyDictGet (items.map (fun i => (i.item_id, i))) id with _ | i <;>
      rcases heqp :
          pyDictGet (predictions.map (fun p => (p.item_id, p))) id with _ | p <;>
      rw [heqi, heqp] at hip
    · exact absurd hip (by simp)
    · exact absurd hip (by simp)
    · exact absurd hip (by simp)
    obtain rfl : ip = (i, p) := by simpa using hip.symm
    exact (pyDictGet_map_eq_some heqi).2

/-- Under the lenient policy, `classify_batch` never raises: it returns the
combined labeled items of the matched pairs. -/
theorem classify_batch_lenient_eq (items : List HazmatInputItem)
    (predictions : List HazmatPrediction) :
    classify_batch items predictions true =
      .ok ((matchedPairs items predictions).map (fun ip =>
        HazmatLabeledItem.combine_input_and_prediction ip.1 ip.2)) := by
  have hpred : predict_batch items predictions true = .ok predictions := by
    rw [predict_batch, if_neg]
    simp
  rw [classify_batch, hpred]
  apply mapM_ok_of_forall
  intro ip hip
  have hids := (mem_matchedPairs hip).2.2.1
  rw [HazmatLabeledItem.from_input_and_prediction, if_neg (by simpa using hids)]
  rfl

/-! ## C3 / C9: lenient reconciliation -/

/-- The driver's re-queue step (`__main__.py`, lines 183–188): keep the
batch items whose `item_id` is not among the returned results' ids
(`processed_ids` is a Python set; membership in it coincides with
membership in the list of result ids). -/
def requeueUnprocessed (batch : List HazmatInputItem)
    (results : List HazmatLabeledItem) : List HazmatInputItem :=
  batch.filter (fun item => decide (item.item_id ∉ results.map (·.item_id)))

/-- Items A, B, C for the concrete reconciliation example of the spec. -/
def itemA : HazmatInputItem :=
  { item_id := "A".data, name := "Item A".data, domain_id := "D".data,
    family_name := "F".data }

def itemB : HazmatInputItem :=
  { item_id := "B".data, name := "Item B".data, domain_id := "D".data,
    family_name := "F".data }

def itemC : HazmatInputItem :=
  { item_id := "C".data, name := "Item C".data, domain_id := "D".data,
    family_name := "F".data }

def predA : HazmatPrediction :=
  { item_id := "A".data, is_hazmat := false, reason := "inert".data }

def predC : HazmatPrediction :=
  { item_id := "C".data, is_hazmat := true, traits := [.known .toxic],
    reason := "toxic".data }

/-- C3: under the lenient policy, for every sent batch and received
prediction sequence, `classify_batch` succeeds; the resolved output consists
exactly of matched (input, prediction) pairs, its id set is
`sent_ids ∩ received_ids`, and the driver re-queues exactly the sent items
whose id is in `sent_ids − received_ids`.  In particular for sent
`{A, B, C}` and received `{A, C}`, resolved is `{A, C}` and re-queued is
`{B}`. -/
theorem c3_lenient_reconciliation :
    (∀ (items : List HazmatInputItem) (predictions : List HazmatPrediction),
      ∃ out, classify_batch items predictions true = .ok out ∧
        (out.map (·.item_id)).toFinset =
          (items.map (·.item_id)).toFinset ∩
            (predictions.map (·.item_id)).toFinset ∧
        (∀ l ∈ out, ∃ i ∈ items, ∃ p ∈ predictions,
          i.item_id = l.item_id ∧ p.item_id = l.item_id ∧
          HazmatLabeledItem.from_input_and_prediction i p = .ok l) ∧
        requeueUnprocessed items out = items.filter (fun i =>
          decide (i.item_id ∈
            (items.map (·.item_id)).toFinset \
              (predictions.map (·.item_id)).toFinset))) ∧
    classify_batch [itemA, itemB, itemC] [predA, predC] true =
      .ok [HazmatLabeledItem.combine_input_and_prediction itemA predA,
           HazmatLabeledItem.combine_input_and_prediction itemC predC] ∧
    requeueUnprocessed [itemA, itemB, itemC]
        [HazmatLabeledItem.combine_input_and_prediction itemA predA,
         HazmatLabeledItem.combine_input_and_prediction itemC predC] =
      [itemB] := by
  refine ⟨?_, rfl, by decide⟩
  intro items predictions
  refine ⟨_, classify_batch_lenient_eq items predictions, ?_, ?_, ?_⟩
  · have hids : ((matchedPairs items predictions).map (fun ip =>
        HazmatLabeledItem.combine_input_and_prediction ip.1 ip.2)).map
          (·.item_id) =
        (pyDictKeys (items.map (·.item_id))).filter
          (fun id => decide (id ∈ predictions.map (·.item_id))) := by
      rw [List.map_map]
      exact matchedPairs_map_fst_id items predictions
    rw [hids]
    ext a
    simp only [List.mem_toFinset, List.mem_filter, Finset.mem_inter,
      mem_pyDictKeys, decide_eq_true_eq]
  · intro l hl
    obtain ⟨ip, hip, rfl⟩ := List.mem_map.mp hl
    obtain ⟨h1, h2, h3, _, _⟩ := mem_matchedPairs hip
    exact ⟨ip.1, h1, ip.2, h2, rfl, h3.symm, by
      rw [HazmatLabeledItem.from_input_and_prediction, if_neg (by simpa using h3)]⟩
  · rw [requeueUnprocessed]
    apply List.filter_congr
    intro i hi
    have hmem : i.item_id ∈ (items.map (·.item_id)).toFinset :=
      List.mem_toFinset.mpr (List.mem_map.mpr ⟨i, hi, rfl⟩)
    have hout : i.item_id ∈
        ((matchedPairs items predictions).map (fun ip =>
          HazmatLabeledItem.combine_input_and_prediction ip.1 ip.2)).map
            (·.item_id) ↔
        i.item_id ∈ (items.map (·.item_id)).toFinset ∩
          (predictions.map (·.item_id)).toFinset := by
      rw [List.map_map]
      rw [show ((fun l : HazmatLabeledItem => l.item_id) ∘ fun ip =>
          HazmatLabeledItem.combine_input_and_prediction ip.1 ip.2) =
        (fun ip : HazmatInputItem × HazmatPrediction => ip.1.item_id) from rfl]
      rw [matchedPairs_map_fst_id items predictions]
      simp only [List.mem_filter, Finset.mem_inter, List.mem_toFinset,
        mem_pyDictKeys, decide_eq_true_eq]
    rw [decide_eq_decide]
    constructor
    · intro hni
      rw [Finset.mem_sdiff]
      refine ⟨hmem, fun hb => hni (hout.mpr (Finset.mem_inter.mpr ⟨hmem, hb⟩))⟩
    · intro hs hmem2
      rw [Finset.mem_sdiff] at hs
      exact hs.2 (Finset.mem_inter.mp (hout.mp hmem2)).2

/-- C9: under the lenient policy, `classify_batch` returns at most one
labeled item per `item_id` (the returned ids are nodup), every returned id
belongs to some item of the input batch (predictions with foreign ids are
silently discarded), and each returned item's prediction fields come from
the *last* prediction in the received sequence carrying that `item_id`. -/
theorem c9_lenient_dedup_last_prediction_wins
    (items : List HazmatInputItem) (predictions : List HazmatPrediction) :
    ∃ out, classify_batch items predictions true = .ok out ∧
      (out.map (·.item_id)).Nodup ∧
      (∀ l ∈ out, l.item_id ∈ items.map (·.item_id)) ∧
      (∀ l ∈ out, ∃ p,
        (predictions.filter (fun p => p.item_id == l.item_id)).getLast? =
          some p ∧
        l.is_hazmat = p.is_hazmat ∧ l.traits = p.traits ∧
        l.reason = p.reason) := by
  refine ⟨_, classify_batch_lenient_eq items predictions, ?_, ?_, ?_⟩
  · rw [List.map_map]
    rw [show ((fun l : HazmatLabeledItem => l.item_id) ∘ fun ip =>
        HazmatLabeledItem.combine_input_and_prediction ip.1 ip.2) =
      (fun ip : HazmatInputItem × HazmatPrediction => ip.1.item_id) from rfl]
    rw [matchedPairs_map_fst_id items predictions]
    exact (nodup_pyDictKeys _).filter _
  · intro l hl
    obtain ⟨ip, hip, rfl⟩ := List.mem_map.mp hl
    exact List.mem_map.mpr ⟨ip.1, (mem_matchedPairs hip).1, rfl⟩
  · intro l hl
    obtain ⟨ip, hip, rfl⟩ := List.mem_map.mp hl
    exact ⟨ip.2, (mem_matchedPairs hip).2.2.2.1, rfl, rfl, rfl⟩

/-! ## `_extract_batch` (`__main__.py`, lines 209–232)

The halving loop (`while estimated_token_count > max_input_tokens`) is
modelled with an explicit step bound (`fuel`); each step strictly shrinks
the candidate, and `_extract_batch` passes `fuel = batch.length`, which is
proved sufficient below, so the fuel-exhaustion branch is dead at the call
site.  The error value carries the offending batch (the `ValueError`
message interpolates it).  A candidate that is empty *and* over budget
would loop forever in the source; that state is unreachable from
`_extract_batch` entered with a non-empty pool, and the model returns the
error there. -/

def extractLoop (batch_token_estimator : List HazmatInputItem → Nat)
    (max_input_tokens : Nat) :
    Nat → List HazmatInputItem → List HazmatInputItem →
      Except (List HazmatInputItem) (List HazmatInputItem × List HazmatInputItem)
  | fuel, items_to_process, batch =>
    if batch_token_estimator batch ≤ max_input_tokens then
      .ok (items_to_process, batch)
    else if batch.length ≤ 1 then
      .error batch
    else
      match fuel with
      | 0 => .error batch
      | fuel + 1 =>
        extractLoop batch_token_estimator max_input_tokens fuel
          (items_to_process ++ batch.take (batch.length / 2))
          (batch.drop (batch.length / 2))

/-- `_extract_batch`: pop `min(batch_size, len(pool))` items off the end of
the pool (so the candidate is the reversed tail), then run the halving
loop.  Returns the new pool together with the batch, or the too-large
singleton batch as the error. -/
def _extract_batch (items_to_process : List HazmatInputItem)
    (batch_size : Nat) (max_input_tokens : Nat)
    (batch_token_estimator : List HazmatInputItem → Nat) :
    Except (List HazmatInputItem)
      (List HazmatInputItem × List HazmatInputItem) :=
  let items_to_batch := min batch_size items_to_process.length
  let batch :=
    (items_to_process.drop (items_to_process.length - items_to_batch)).reverse
  let rest :=
    items_to_process.take (items_to_process.length - items_to_batch)
  extractLoop batch_token_estimator max_input_tokens batch.length rest batch

theorem extractLoop_ok {est : List HazmatInputItem → Nat} {mt : Nat} :
    ∀ {fuel : Nat} {pool batch pool' batch' : List HazmatInputItem},
      extractLoop est mt fuel pool batch = .ok (pool', batch') →
      est batch' ≤ mt ∧ pool' ++ batch' = pool ++ batch
  | 0, pool, batch, pool', batch', h => by
    rw [extractLoop] at h
    split at h
    · cases h
      exact ⟨by assumption, rfl⟩
    · split at h <;> cases h
  | fuel + 1, pool, batch, pool', batch', h => by
    rw [extractLoop] at h
    split at h
    · cases h
      exact ⟨by assumption, rfl⟩
    · split at h
      · cases h
      · have ih := extractLoop_ok h
        refine ⟨ih.1, ?_⟩
        rw [ih.2, List.append_assoc, List.take_append_drop]

theorem extractLoop_error {est : List HazmatInputItem → Nat} {mt : Nat} :
    ∀ {fuel : Nat} {pool batch b : List HazmatInputItem},
      batch.length ≤ fuel →
      extractLoop est mt fuel pool batch = .error b →
      mt < est b ∧ b.length ≤ 1 ∧ (batch ≠ [] → b ≠ [])
  | 0, pool, batch, b, hfuel, h => by
    have hnil : batch = [] := List.length_eq_zero.mp (Nat.le_zero.mp hfuel)
    subst hnil
    rw [extractLoop] at h
    split at h
    · cases h
    · rw [if_pos (by simp)] at h
      cases h
      exact ⟨by omega, by simp, fun hne => absurd rfl hne⟩
  | fuel + 1, pool, batch, b, hfuel, h => by
    rw [extractLoop] at h
    split at h
    · cases h
    · rename_i hgt
      split at h
      · cases h
        exact ⟨by omega, by assumption, fun hne hb => hne hb⟩
      · rename_i hlen
        have hlen2 : 2 ≤ batch.length := by omega
        have hdrop : (batch.drop (batch.length / 2)).length ≤ fuel := by
          rw [List.length_drop]
          omega
        have ih := extractLoop_error hdrop h
        refine ⟨ih.1, ih.2.1, fun _ => ih.2.2 ?_⟩
        intro hnil
        have := congrArg List.length hnil
        rw [List.length_drop] at this
        simp at this
        omega

/-- C1: for every non-empty pool, every `batch_size ≥ 1`, every token
budget and every prompt-builder-based estimator: (a) if `_extract_batch`
returns a batch, the estimator's value on that batch is `≤ max_input_tokens`;
(b) if it raises, the offending candidate has been halved down to exactly
one item whose estimate still exceeds the budget; (c) each halving step
returns the first half of the candidate to the pool (appended at the end,
as `list.extend` does) and keeps the second half as the new candidate. -/
theorem c1_extract_batch_budget_or_singleton_error
    (items_to_process : List HazmatInputItem) (batch_size max_input_tokens : Nat)
    (batch_token_estimator : List HazmatInputItem → Nat)
    (hpool : items_to_process ≠ []) (hbs : 1 ≤ batch_size) :
    (∀ pool' batch,
      _extract_batch items_to_process batch_size max_input_tokens
          batch_token_estimator = .ok (pool', batch) →
      batch_token_estimator batch ≤ max_input_tokens) ∧
    (∀ b,
      _extract_batch items_to_process batch_size max_input_tokens
          batch_token_estimator = .error b →
      b.length = 1 ∧ max_input_tokens < batch_token_estimator b) ∧
    (∀ (fuel : Nat) (pool₀ batch : List HazmatInputItem),
      max_input_tokens < batch_token_estimator batch → 2 ≤ batch.length →
      extractLoop batch_token_estimator max_input_tokens (fuel + 1) pool₀
          batch =
        extractLoop batch_token_estimator max_input_tokens fuel
          (pool₀ ++ batch.take (batch.length / 2))
          (batch.drop (batch.length / 2))) := by
  refine ⟨?_, ?_, ?_⟩
  · intro pool' batch h
    exact (extractLoop_ok h).1
  · intro b h
    rw [_extract_batch] at h
    have hne : ((items_to_process.drop
        (items_to_process.length -
          min batch_size items_to_process.length)).reverse : List _) ≠ [] := by
      simp only [ne_eq, List.reverse_eq_nil_iff, List.drop_eq_nil_iff_le,
        not_le]
      have : 0 < items_to_process.length := List.length_pos.mpr hpool
      omega
    have := extractLoop_error (Nat.le_refl _) h
    refine ⟨?_, this.1⟩
    have hb := this.2.2 hne
    have := this.2.1
    have : 0 < b.length := List.length_pos.mpr hb
    omega
  · intro fuel pool₀ batch hover hlen
    rw [extractLoop, if_neg (by omega), if_neg (by omega)]

/-- Witness for C1: a pool of two items with a budget of zero halves down
to a singleton and raises; with a budget of five the popped batch fits. -/
theorem c1_extract_batch_budget_or_singleton_error_witness :
    ([itemA, itemB] : List HazmatInputItem) ≠ [] ∧
    _extract_batch [itemA, itemB] 10 0 (fun b => b.length) =
      .error [itemA] ∧
    ([itemA] : List HazmatInputItem).length = 1 ∧
    (0 : Nat) < ([itemA] : List HazmatInputItem).length ∧
    _extract_batch [itemA, itemB] 10 5 (fun b => b.length) =
      .ok ([], [itemB, itemA]) ∧
    ([itemB, itemA] : List HazmatInputItem).length ≤ 5 :=
  ⟨by decide, rfl,
   ((c1_extract_batch_budget_or_singleton_error [itemA, itemB] 10 0
       (fun b => b.length) (by decide) (by decide)).2.1 [itemA] rfl).1,
   ((c1_extract_batch_budget_or_singleton_error [itemA, itemB] 10 0
       (fun b => b.length) (by decide) (by decide)).2.1 [itemA] rfl).2,
   rfl,
   (c1_extract_batch_budget_or_singleton_error [itemA, itemB] 10 5
       (fun b => b.length) (by decide) (by decide)).1 [] [itemB, itemA] rfl⟩

/-! ## `_process_batch` (`__main__.py`, lines 193–206) -/

/-- `_process_batch`: call `classify_batch` under the lenient policy and
catch *any* exception.  The external model run is the `model_outcome`
parameter: `none` models the model-run capability itself raising (network
error, schema validation, rate limit); `some predictions` models a
successful run returning `predictions`, after which `classify_batch`'s own
result (including any exception it raises) is handled.  On any exception
the original batch is returned with an empty result list. -/
def _process_batch (batch : List HazmatInputItem)
    (model_outcome : Option (List HazmatPrediction)) :
    List HazmatInputItem × List HazmatLabeledItem :=
  match model_outcome with
  | none => (batch, [])
  | some predictions =>
    match classify_batch batch predictions true with
    | .ok result => (batch, result)
    | .error _ => (batch, [])

/-- C5: `_process_batch` never propagates an exception (it is a total
function into a pair): for every batch and every model outcome it returns
the original batch unchanged, paired with the classification results on
success and with the empty sequence when the capability raised or
`classify_batch` itself raised. -/
theorem c5_process_batch_total_returns_batch
    (batch : List HazmatInputItem)
    (model_outcome : Option (List HazmatPrediction)) :
    (_process_batch batch model_outcome).1 = batch ∧
    ((∃ predictions result, model_outcome = some predictions ∧
        classify_batch batch predictions true = .ok result ∧
        (_process_batch batch model_outcome).2 = result) ∨
      ((_process_batch batch model_outcome).2 = [] ∧
        (model_outcome = none ∨
          ∃ predictions e, model_outcome = some predictions ∧
            classify_batch batch predictions true = .error e))) := by
  rcases model_outcome with _ | predictions
  · exact ⟨rfl, Or.inr ⟨rfl, Or.inl rfl⟩⟩
  · rcases hc : classify_batch batch predictions true with e | result
    · refine ⟨?_, Or.inr ⟨?_, Or.inr ⟨predictions, e, rfl, hc⟩⟩⟩ <;>
        simp [_process_batch, hc]
    · refine ⟨?_, Or.inl ⟨predictions, result, rfl, hc, ?_⟩⟩ <;>
        simp [_process_batch, hc]

/-! ## Text utilities (`utils/text.py`) and prompt construction (`agent.py`)

`clean_text(text) = textwrap.dedent(text).strip()`.  CPython's
`textwrap.dedent` first blanks out whitespace-only lines, computes the
longest common space/tab margin of the lines that contain a non-whitespace
character, and removes that margin from the start of every line that has
it. -/

/-- Space or tab: the characters `textwrap.dedent` treats as margin. -/
def isDedentWs (c : Char) : Bool := c == ' ' || c == '\t'

/-- A line matching `^[ \t]+$` (non-empty, all space/tab). -/
def lineIsWsOnly (l : PyStr) : Bool := !l.isEmpty && l.all isDedentWs

/-- A line containing a non-space/tab character (the lines whose indent
participates in the margin computation). -/
def lineHasContent (l : PyStr) : Bool := l.any (fun c => !isDedentWs c)

/-- The leading space/tab run of a line. -/
def lineIndent (l : PyStr) : PyStr := l.takeWhile isDedentWs

/-- `str.split("\n")`. -/
def splitLines : PyStr → List PyStr
  | [] => [[]]
  | c :: cs =>
    match splitLines cs with
    | [] => [[]]
    | l :: ls => if c = '\n' then [] :: l :: ls else (c :: l) :: ls

/-- Longest common prefix of two strings. -/
def commonPrefix : PyStr → PyStr → PyStr
  | a :: as2, b :: bs => if a = b then a :: commonPrefix as2 bs else []
  | _, _ => []

/-- One step of `textwrap.dedent`'s margin fold: keep the margin if the
indent extends it, shrink to the indent if the indent is a prefix, and
otherwise cut at the first mismatch. -/
def marginStep (margin indent : PyStr) : PyStr :=
  if margin.isPrefixOf indent then margin
  else if indent.isPrefixOf margin then indent
  else commonPrefix margin indent

/-- `textwrap.dedent`. -/
def dedent (text : PyStr) : PyStr :=
  let lines := (splitLines text).map (fun l => if lineIsWsOnly l then [] else l)
  let indents := (lines.filter lineHasContent).map lineIndent
  let margin :=
    match indents with
    | [] => []
    | i :: rest => rest.foldl marginStep i
  List.intercalate "\n".data
    (lines.map (fun l =>
      if margin.isPrefixOf l then l.drop margin.length else l))

/-- The whitespace characters `str.strip()` removes (ASCII; the templates
contain nothing beyond these). -/
def isPyStripWs (c : Char) : Bool :=
  c == ' ' || c == '\t' || c == '\n' || c == '\r' ||
    c == Char.ofNat 11 || c == Char.ofNat 12

/-- `str.strip()`. -/
def pyStrip (s : PyStr) : PyStr :=
  ((s.dropWhile isPyStripWs).reverse.dropWhile isPyStripWs).reverse

/-- `clean_text` from `src/hazmate/utils/text.py`. -/
def clean_text (text : PyStr) : PyStr := pyStrip (dedent text)

/-- `InputDatasetAttribute.to_text`. -/
def InputDatasetAttribute.to_text (self : InputDatasetAttribute) : PyStr :=
  self.name ++ ": ".data ++ self.value_name

/-- `InputDatasetMainFeature.to_text`. -/
def InputDatasetMainFeature.to_text (self : InputDatasetMainFeature) : PyStr :=
  self.text

/-- `HazmatInputItem.get_all_text_content_as_xml`
(`input_items.py`, lines 120–163). -/
def HazmatInputItem.get_all_text_content_as_xml (self : HazmatInputItem)
    (include_item_id : Bool := true) (include_attributes : Bool := true) :
    PyStr :=
  let content_parts := ["<item>".data]
  let content_parts := if include_item_id then
      content_parts ++ ["<item_id>".data ++ self.item_id ++ "</item_id>".data]
    else content_parts
  let content_parts := if !self.name.isEmpty then
      content_parts ++ ["<name>".data ++ self.name ++ "</name>".data]
    else content_parts
  let content_parts := if !self.family_name.isEmpty then
      content_parts ++
        ["<family_name>".data ++ self.family_name ++ "</family_name>".data]
    else content_parts
  let description := pyStrip (self.description.getD [])
  let content_parts := if !description.isEmpty then
      content_parts ++
        ["<description>".data ++ description ++ "</description>".data]
    else content_parts
  let short_description := pyStrip (self.short_description.getD [])
  let content_parts := if !short_description.isEmpty then
      content_parts ++ ["<short_description>".data ++ short_description ++
        "</short_description>".data]
    else content_parts
  let content_parts := if !(self.keywords.getD []).isEmpty then
      content_parts ++
        ["<keywords>".data ++ self.keywords.getD [] ++ "</keywords>".data]
    else content_parts
  let content_parts := if include_attributes then
      content_parts ++
        self.attributes.filterMap (fun attr =>
          let attr_text := pyStrip attr.to_text
          if !attr_text.isEmpty then
            some ("<attribute>".data ++ attr_text ++ "</attribute>".data)
          else none) ++
        self.main_features.filterMap (fun feature =>
          let feature_text := pyStrip feature.to_text
          if !feature_text.isEmpty then
            some ("<feature>".data ++ feature_text ++ "</feature>".data)
          else none)
    else content_parts
  List.intercalate "\n".data (content_parts ++ ["</item>".data])

/-- The triple-quoted template of `get_user_prompt_for_batch`
(`agent.py`, lines 216–220), with its source indentation. -/
def batchPromptTemplate : PyStr :=
  ("Analyze the following product information and classify each item as containing hazardous materials or not.\n\n                {item_data}\n            ").data

/-- The triple-quoted template of the prompt built inside `predict_batch`
(`agent.py`, lines 280–286), with its source indentation. -/
def predictPromptTemplate : PyStr :=
  ("Analyze the following product information and classify each item as containing hazardous materials or not.\n\n                {item_data}\n\n                For each input item above, you must provide a classification result with the corresponding item_id.\n            ").data

/-- Split a string at the first occurrence of `pat`. -/
def splitFirst (pat : PyStr) : PyStr → Option (PyStr × PyStr)
  | [] => if pat.isEmpty then some ([], []) else none
  | c :: rest =>
    if pat.isPrefixOf (c :: rest) then some ([], (c :: rest).drop pat.length)
    else
      match splitFirst pat rest with
      | some (pre, post) => some (c :: pre, post)
      | none => none

/-- `template.format(item_data=value)` for a template whose only
replacement field is `{item_data}` (as in both prompt templates):
substitute the value at the first occurrence of the field. -/
def pyFormatItemData (template : PyStr) (item_data : PyStr) : PyStr :=
  match splitFirst "{item_data}".data template with
  | some (pre, post) => pre ++ item_data ++ post
  | none => template

/-- `HazmatAgent.get_user_prompt_for_batch` (`agent.py`, lines 210–226):
the cleaned template formatted with the newline-joined XML renderings
(`include_item_id` left at its default `True`). -/
def get_user_prompt_for_batch (items : List HazmatInputItem)
    (include_attributes : Bool := true) : PyStr :=
  pyFormatItemData (clean_text batchPromptTemplate)
    (List.intercalate "\n".data (items.map (fun item =>
      item.get_all_text_content_as_xml true include_attributes)))

/-- The prompt `predict_batch` actually sends (`agent.py`, lines 280–295):
the cleaned predict template formatted with the same joined XML
renderings. -/
def predict_batch_prompt (items : List HazmatInputItem)
    (include_item_id : Bool := true) (include_attributes : Bool := true) :
    PyStr :=
  pyFormatItemData (clean_text predictPromptTemplate)
    (List.intercalate "\n".data (items.map (fun item =>
      item.get_all_text_content_as_xml include_item_id include_attributes)))

/-- The extra instruction sentence (with its blank-line separator and
indentation) present in the predict template but not in the batch
template, after cleaning. -/
def predictPromptSuffix : PyStr :=
  ("\n\n                For each input item above, you must provide a classification result with the corresponding item_id.").data

/-- The batch token estimator closure the driver passes to
`_extract_batch` (`__main__.py`, lines 169–173). -/
def batch_token_estimator (batch : List HazmatInputItem) : Nat :=
  estimate_token_count (get_user_prompt_for_batch batch) .overestimate

set_option maxRecDepth 40000
set_option maxHeartbeats 2000000

/-- The shared prefix of both cleaned prompt templates, up to the
`{item_data}` field. -/
def promptPrefix : PyStr :=
  ("Analyze the following product information and classify each item as containing hazardous materials or not.\n\n                ").data

/-- Formatting the cleaned batch template places the item data after the
shared prefix (the field is the final content of the cleaned template). -/
theorem pyFormat_batch_template (v : PyStr) :
    pyFormatItemData (clean_text batchPromptTemplate) v =
      promptPrefix ++ v ++ [] := rfl

/-- Formatting the cleaned predict template places the item data between
the shared prefix and the extra instruction sentence. -/
theorem pyFormat_predict_template (v : PyStr) :
    pyFormatItemData (clean_text predictPromptTemplate) v =
      promptPrefix ++ v ++ predictPromptSuffix := rfl

/-- C10: for every non-empty item sequence, the prompt `predict_batch`
sends to the model is the driver-estimated prompt
(`get_user_prompt_for_batch`, at the default `include_item_id=True`,
`include_attributes=True` used by `classify_batch` from the driver) with
the extra instruction sentence appended — hence strictly longer, so the
driver's token-budget check never sees the dispatched prompt. -/
theorem c10_predict_prompt_strictly_longer (items : List HazmatInputItem)
    (hne : items ≠ []) :
    predict_batch_prompt items true true =
      get_user_prompt_for_batch items true ++ predictPromptSuffix ∧
    (get_user_prompt_for_batch items true).length <
      (predict_batch_prompt items true true).length := by
  have heq : predict_batch_prompt items true true =
      get_user_prompt_for_batch items true ++ predictPromptSuffix := by
    rw [predict_batch_prompt, get_user_prompt_for_batch,
      pyFormat_batch_template, pyFormat_predict_template, List.append_nil]
  refine ⟨heq, ?_⟩
  rw [heq, List.length_append]
  have hsuf : 0 < predictPromptSuffix.length := by decide
  omega

/-- Witness for C10 at the singleton batch `[itemA]`. -/
theorem c10_predict_prompt_strictly_longer_witness :
    ([itemA] : List HazmatInputItem) ≠ [] ∧
    (predict_batch_prompt [itemA] true true =
      get_user_prompt_for_batch [itemA] true ++ predictPromptSuffix ∧
    (get_user_prompt_for_batch [itemA] true).length <
      (predict_batch_prompt [itemA] true true).length) :=
  ⟨by decide, c10_predict_prompt_strictly_longer [itemA] (by decide)⟩

/-! ## The batch driver loop (`__main__.py`, `main`, lines 158–190)

Modelled at `parallel_batches = 1` (the default): the inner `while` fills
exactly one task, `asyncio.wait` returns it, and its results are
reconciled before the next batch is extracted — a sequential loop.  The
external model runs are an oracle indexed by the dispatch counter.  The
loop need not terminate (an always-failing oracle re-queues forever), so
the model takes a fuel bound and reports `outOfFuel` when it is exhausted;
`done` and `abortedTooLarge` results are genuine loop exits of the
source. -/

/-- Result of a driver run: normal completion with the written records, the
uncaught `BatchTooLargeError` (`ValueError`) aborting the run, or fuel
exhaustion (the loop was still running). -/
inductive RunResult where
  | done (written : List HazmatLabeledItem)
  | abortedTooLarge (written : List HazmatLabeledItem)
      (failed_batch : List HazmatInputItem)
  | outOfFuel (written : List HazmatLabeledItem)
      (items_to_process : List HazmatInputItem)
deriving DecidableEq

/-- One driver loop: while the pool is non-empty, extract a batch
(`_extract_batch`, which may raise `BatchTooLargeError` — uncaught, so the
run aborts), process it (`_process_batch`, which never raises), re-queue
the batch items whose ids are missing from the results, and append the
results to the output. -/
def driverRun (batch_size max_input_tokens : Nat)
    (est : List HazmatInputItem → Nat)
    (oracle : Nat → Option (List HazmatPrediction)) :
    Nat → Nat → List HazmatInputItem → List HazmatLabeledItem → RunResult
  | 0, _step, items_to_process, written =>
    if items_to_process.isEmpty then .done written
    else .outOfFuel written items_to_process
  | fuel + 1, step, items_to_process, written =>
    if items_to_process.isEmpty then .done written
    else
      match _extract_batch items_to_process batch_size max_input_tokens est with
      | .error failed_batch => .abortedTooLarge written failed_batch
      | .ok (rest, batch) =>
        let processed := _process_batch batch (oracle step)
        driverRun batch_size max_input_tokens est oracle fuel (step + 1)
          (rest ++ requeueUnprocessed processed.1 processed.2)
          (written ++ processed.2)

/-- The resume filter (`__main__.py`, lines 149–151): drop the input items
whose `item_id` was already found in the existing output file
(`processed_item_ids` is a Python set; membership coincides with list
membership). -/
def filterProcessed (items : List HazmatInputItem)
    (processed_item_ids : List PyStr) : List HazmatInputItem :=
  items.filter (fun item => decide (item.item_id ∉ processed_item_ids))

theorem _extract_batch_ok_perm {pool rest batch : List HazmatInputItem}
    {bs mt : Nat} {est : List HazmatInputItem → Nat}
    (h : _extract_batch pool bs mt est = .ok (rest, batch)) :
    List.Perm (rest ++ batch) pool := by
  rw [_extract_batch] at h
  rw [(extractLoop_ok h).2]
  have h1 : List.Perm
      (pool.take (pool.length - min bs pool.length) ++
        (pool.drop (pool.length - min bs pool.length)).reverse)
      (pool.take (pool.length - min bs pool.length) ++
        pool.drop (pool.length - min bs pool.length)) :=
    List.Perm.append_left _ (List.reverse_perm _)
  rw [List.take_append_drop] at h1
  exact h1

theorem _extract_batch_error_singleton {pool b : List HazmatInputItem}
    {bs mt : Nat} {est : List HazmatInputItem → Nat}
    (hpool : pool ≠ []) (hbs : 1 ≤ bs)
    (h : _extract_batch pool bs mt est = .error b) :
    b.length = 1 ∧ mt < est b := by
  rw [_extract_batch] at h
  have hne : ((pool.drop
      (pool.length - min bs pool.length)).reverse : List _) ≠ [] := by
    simp only [ne_eq, List.reverse_eq_nil_iff, List.drop_eq_nil_iff, not_le]
    have : 0 < pool.length := List.length_pos.mpr hpool
    omega
  have hspec := extractLoop_error (Nat.le_refl _) h
  have hb := hspec.2.2 hne
  have h1 := hspec.2.1
  have : 0 < b.length := List.length_pos.mpr hb
  exact ⟨by omega, hspec.1⟩

/-- One reconciliation step conserves ids: the ids of the results plus the
ids of the re-queued items are a permutation of the batch's ids (valid for
both a successful model run and a caught failure), provided the batch's
ids are distinct. -/
theorem process_step_ids_perm (batch : List HazmatInputItem)
    (mo : Option (List HazmatPrediction))
    (hnd : (batch.map (·.item_id)).Nodup) :
    List.Perm
      ((_process_batch batch mo).2.map (·.item_id) ++
        (requeueUnprocessed (_process_batch batch mo).1
          (_process_batch batch mo).2).map (·.item_id))
      (batch.map (·.item_id)) := by
  rcases mo with _ | preds
  · simp [_process_batch, requeueUnprocessed]
  · have hpb : _process_batch batch (some preds) =
        (batch, (matchedPairs batch preds).map (fun ip =>
          HazmatLabeledItem.combine_input_and_prediction ip.1 ip.2)) := by
      rw [_process_batch, classify_batch_lenient_eq]
    rw [hpb]
    have hout : ((matchedPairs batch preds).map (fun ip =>
        HazmatLabeledItem.combine_input_and_prediction ip.1 ip.2)).map
          (·.item_id) =
        (batch.map (·.item_id)).filter
          (fun id => decide (id ∈ preds.map (·.item_id))) := by
      rw [List.map_map]
      rw [show ((fun l : HazmatLabeledItem => l.item_id) ∘ fun ip =>
          HazmatLabeledItem.combine_input_and_prediction ip.1 ip.2) =
        (fun ip : HazmatInputItem × HazmatPrediction => ip.1.item_id) from rfl]
      rw [matchedPairs_map_fst_id, pyDictKeys_eq_self_of_nodup hnd]
    have hreq : requeueUnprocessed batch
        ((matchedPairs batch preds).map (fun ip =>
          HazmatLabeledItem.combine_input_and_prediction ip.1 ip.2)) =
        batch.filter (fun i =>
          !(decide (i.item_id ∈ preds.map (·.item_id)))) := by
      rw [requeueUnprocessed]
      apply List.filter_congr
      intro i hi
      have hidmem : i.item_id ∈ batch.map (·.item_id) :=
        List.mem_map.mpr ⟨i, hi, rfl⟩
      have hiff : (i.item_id ∈ ((matchedPairs batch preds).map (fun ip =>
          HazmatLabeledItem.combine_input_and_prediction ip.1 ip.2)).map
            (·.item_id)) ↔ i.item_id ∈ preds.map (·.item_id) := by
        rw [hout]
        simp [List.mem_filter, hidmem]
      rw [decide_not]
      exact congrArg (fun b => !b) (decide_eq_decide.mpr hiff)
    rw [hreq, hout]
    have hreqmap : (batch.filter (fun i =>
        !(decide (i.item_id ∈ preds.map (·.item_id))))).map (·.item_id) =
        (batch.map (·.item_id)).filter
          (fun id => !(decide (id ∈ preds.map (·.item_id)))) := by
      rw [List.filter_map]
      rfl
    rw [hreqmap]
    exact List.filter_append_perm _ _

/-- Driver invariant: starting from a state whose pool ids and written ids
are jointly distinct, (a) a `done` result's written ids are exactly (as a
multiset) the pool ids plus the previously written ids — no item lost, no
duplicate — and (b) an `abortedTooLarge` result's failing batch is a
single item whose estimate exceeds the token budget. -/
theorem driverRun_spec (batch_size max_input_tokens : Nat)
    (est : List HazmatInputItem → Nat)
    (oracle : Nat → Option (List HazmatPrediction)) (hbs : 1 ≤ batch_size) :
    ∀ (fuel step : Nat) (pool : List HazmatInputItem)
      (written : List HazmatLabeledItem),
      ((pool.map (·.item_id)) ++ (written.map (·.item_id))).Nodup →
      (∀ w, driverRun batch_size max_input_tokens est oracle fuel step pool
          written = .done w →
        (↑(w.map (·.item_id)) : Multiset PyStr) =
          ↑(pool.map (·.item_id)) + ↑(written.map (·.item_id))) ∧
      (∀ w fb, driverRun batch_size max_input_tokens est oracle fuel step pool
          written = .abortedTooLarge w fb →
        fb.length = 1 ∧ max_input_tokens < est fb)
  | 0, step, pool, written, hnd => by
    rw [driverRun]
    by_cases hp : pool.isEmpty
    · rw [if_pos hp]
      have hpe : pool = [] := by simpa using hp
      subst hpe
      constructor
      · intro w hw
        cases hw
        simp
      · intro w fb hw
        exact RunResult.noConfusion hw
    · rw [if_neg hp]
      exact ⟨fun w hw => RunResult.noConfusion hw,
             fun w fb hw => RunResult.noConfusion hw⟩
  | fuel + 1, step, pool, written, hnd => by
    rw [driverRun]
    by_cases hp : pool.isEmpty
    · rw [if_pos hp]
      have hpe : pool = [] := by simpa using hp
      subst hpe
      constructor
      · intro w hw
        cases hw
        simp
      · intro w fb hw
        exact RunResult.noConfusion hw
    · rw [if_neg hp]
      have hpool : pool ≠ [] := by simpa using hp
      rcases hex : _extract_batch pool batch_size max_input_tokens est with
        fb0 | rb
      · refine ⟨fun w hw => RunResult.noConfusion hw, fun w fb hw => ?_⟩
        cases hw
        exact _extract_batch_error_singleton hpool hbs hex
      · obtain ⟨rest, batch⟩ := rb
        have hperm1 : List.Perm
            ((rest ++ batch).map (·.item_id)) (pool.map (·.item_id)) :=
          (_extract_batch_ok_perm hex).map _
        have hnd_pool : (pool.map (·.item_id)).Nodup := hnd.of_append_left
        have hnd_rb : ((rest ++ batch).map (·.item_id)).Nodup :=
          hperm1.nodup_iff.mpr hnd_pool
        have hnd_batch : (batch.map (·.item_id)).Nodup := by
          rw [List.map_append] at hnd_rb
          exact hnd_rb.of_append_right
        have hstep := process_step_ids_perm batch (oracle step) hnd_batch
        have e1 : (↑(rest.map (·.item_id)) : Multiset PyStr) +
            ↑(batch.map (·.item_id)) = ↑(pool.map (·.item_id)) := by
          rw [Multiset.coe_add]
          exact Multiset.coe_eq_coe.mpr (by
            rw [← List.map_append]
            exact hperm1)
        have e2 : (↑((_process_batch batch (oracle step)).2.map (·.item_id)) :
              Multiset PyStr) +
            ↑((requeueUnprocessed (_process_batch batch (oracle step)).1
              (_process_batch batch (oracle step)).2).map (·.item_id)) =
            ↑(batch.map (·.item_id)) := by
          rw [Multiset.coe_add]
          exact Multiset.coe_eq_coe.mpr hstep
        have key : (↑((rest ++ requeueUnprocessed
              (_process_batch batch (oracle step)).1
              (_process_batch batch (oracle step)).2).map (·.item_id)) :
              Multiset PyStr) +
            ↑((written ++ (_process_batch batch (oracle step)).2).map
              (·.item_id)) =
            ↑(pool.map (·.item_id)) + ↑(written.map (·.item_id)) := by
          rw [List.map_append, List.map_append, ← Multiset.coe_add,
            ← Multiset.coe_add, ← e1, ← e2]
          abel
        have hnd' : (((rest ++ requeueUnprocessed
              (_process_batch batch (oracle step)).1
              (_process_batch batch (oracle step)).2).map (·.item_id)) ++
            ((written ++ (_process_batch batch (oracle step)).2).map
              (·.item_id))).Nodup := by
          have hcoe : (↑(((rest ++ requeueUnprocessed
                (_process_batch batch (oracle step)).1
                (_process_batch batch (oracle step)).2).map (·.item_id)) ++
              ((written ++ (_process_batch batch (oracle step)).2).map
                (·.item_id))) : Multiset PyStr) =
              ↑((pool.map (·.item_id)) ++ (written.map (·.item_id))) := by
            rw [← Multiset.coe_add, ← Multiset.coe_add]
            exact key
          exact (Multiset.coe_eq_coe.mp hcoe).nodup_iff.mpr hnd
        have IH := driverRun_spec batch_size max_input_tokens est oracle hbs
          fuel (step + 1)
          (rest ++ requeueUnprocessed (_process_batch batch (oracle step)).1
            (_process_batch batch (oracle step)).2)
          (written ++ (_process_batch batch (oracle step)).2) hnd'
        constructor
        · intro w hw
          exact (IH.1 w hw).trans key
        · intro w fb hw
          exact IH.2 w fb hw

/-- A prediction for `itemB`, for concrete driver runs. -/
def predB : HazmatPrediction :=
  { item_id := "B".data, is_hazmat := false, reason := "inert".data }

/-- C4 (counterexample to the claim as stated): with the driver's real
token estimator and `max_input_tokens = 1` (a legitimate CLI value), a run
over the two-item pool `[itemA, itemB]` halves the first batch down to the
singleton `[itemA]` and aborts with the uncaught `BatchTooLargeError`.
Nothing was written and one item permanently failed, yet the initial pool
had two items: `|initial pool| ≠ |written| + |permanently failed|`, and the
remaining pool item (`itemB`) is neither written nor surfaced as failed —
the whole run dies with the exception. -/
theorem c4_counterexample :
    driverRun 10 1 batch_token_estimator (fun _ => none) 5 0 [itemA, itemB]
        [] = .abortedTooLarge [] [itemA] ∧
    ¬ (([itemA, itemB] : List HazmatInputItem).length =
        ([] : List HazmatLabeledItem).length +
          ([itemA] : List HazmatInputItem).length) :=
  ⟨rfl, by decide⟩

/-- C4 (amended): for every driver configuration with `batch_size ≥ 1` and
distinct input item ids, a run that *completes* writes exactly as many
items as the initial pool held (no item silently lost, no duplicates);
when a `BatchTooLargeError` occurs the run aborts instead: the offending
batch is a single item whose estimated prompt exceeds the budget (it is
surfaced by the exception, not silently dropped), but the rest of the pool
is left unprocessed rather than written or individually surfaced. -/
theorem c4_conservation_when_no_abort (batch_size max_input_tokens : Nat)
    (est : List HazmatInputItem → Nat)
    (oracle : Nat → Option (List HazmatPrediction)) (fuel : Nat)
    (pool : List HazmatInputItem)
    (hbs : 1 ≤ batch_size) (hnd : (pool.map (·.item_id)).Nodup) :
    (∀ w, driverRun batch_size max_input_tokens est oracle fuel 0 pool [] =
        .done w → w.length = pool.length) ∧
    (∀ w fb, driverRun batch_size max_input_tokens est oracle fuel 0 pool [] =
        .abortedTooLarge w fb →
      fb.length = 1 ∧ max_input_tokens < est fb) := by
  have spec := driverRun_spec batch_size max_input_tokens est oracle hbs
    fuel 0 pool [] (by simpa using hnd)
  refine ⟨?_, fun w fb hw => spec.2 w fb hw⟩
  intro w hw
  have hmul := spec.1 w hw
  simp only [List.map_nil, Multiset.coe_nil, add_zero] at hmul
  have hcard := congrArg Multiset.card hmul
  simpa [Multiset.coe_card] using hcard

/-- Witness for C4 (amended): a completing two-item run with the real
estimator and a generous budget writes exactly two items. -/
theorem c4_conservation_when_no_abort_witness :
    (1 ≤ 10) ∧
    (([itemA, itemB].map (·.item_id)).Nodup) ∧
    driverRun 10 100000 batch_token_estimator
        (fun _ => some [predA, predB]) 5 0 [itemA, itemB] [] =
      .done [HazmatLabeledItem.combine_input_and_prediction itemB predB,
             HazmatLabeledItem.combine_input_and_prediction itemA predA] ∧
    ([HazmatLabeledItem.combine_input_and_prediction itemB predB,
      HazmatLabeledItem.combine_input_and_prediction itemA predA].length =
      ([itemA, itemB] : List HazmatInputItem).length) :=
  ⟨by decide, by decide, rfl,
   (c4_conservation_when_no_abort 10 100000 batch_token_estimator
       (fun _ => some [predA, predB]) 5 [itemA, itemB]
       (by decide) (by decide)).1 _ rfl⟩

/-- C7: resume is idempotent.  If a run completes with output `w`, then
re-running on the same input with `on_existing_output=continue` — which
reads the ids already present in the output and removes them from the
initial pool before the loop starts (the output is then opened in append
mode) — leaves an empty pool, and the second run (under *any*
configuration and model behaviour) completes immediately having processed
and written zero additional items: no duplicates, no omissions. -/
theorem c7_resume_idempotent (batch_size max_input_tokens : Nat)
    (est : List HazmatInputItem → Nat)
    (oracle : Nat → Option (List HazmatPrediction))
    (batch_size2 max_input_tokens2 : Nat)
    (est2 : List HazmatInputItem → Nat)
    (oracle2 : Nat → Option (List HazmatPrediction))
    (fuel fuel2 step2 : Nat) (pool : List HazmatInputItem)
    (w : List HazmatLabeledItem)
    (hbs : 1 ≤ batch_size) (hnd : (pool.map (·.item_id)).Nodup)
    (hdone : driverRun batch_size max_input_tokens est oracle fuel 0 pool [] =
      .done w) :
    filterProcessed pool (w.map (·.item_id)) = [] ∧
    driverRun batch_size2 max_input_tokens2 est2 oracle2 fuel2 step2
      (filterProcessed pool (w.map (·.item_id))) [] = .done [] := by
  have spec := driverRun_spec batch_size max_input_tokens est oracle hbs
    fuel 0 pool [] (by simpa using hnd)
  have hmul := spec.1 w hdone
  simp only [List.map_nil, Multiset.coe_nil, add_zero] at hmul
  have hperm : List.Perm (w.map (·.item_id)) (pool.map (·.item_id)) :=
    Multiset.coe_eq_coe.mp hmul
  have hfil : filterProcessed pool (w.map (·.item_id)) = [] := by
    rw [filterProcessed, List.filter_eq_nil_iff]
    intro i hi
    simp only [decide_eq_true_eq, not_not]
    exact hperm.mem_iff.mpr (List.mem_map.mpr ⟨i, hi, rfl⟩)
  refine ⟨hfil, ?_⟩
  rw [hfil]
  cases fuel2 <;> rfl

/-- Witness for C7: after the completing two-item run, the resume filter
empties the pool and a second run (here with a hostile configuration:
budget 1 and an always-failing model) writes nothing. -/
theorem c7_resume_idempotent_witness :
    (1 ≤ 10) ∧
    (([itemA, itemB].map (·.item_id)).Nodup) ∧
    driverRun 10 100000 batch_token_estimator
        (fun _ => some [predA, predB]) 5 0 [itemA, itemB] [] =
      .done [HazmatLabeledItem.combine_input_and_prediction itemB predB,
             HazmatLabeledItem.combine_input_and_prediction itemA predA] ∧
    (filterProcessed [itemA, itemB]
        ([HazmatLabeledItem.combine_input_and_prediction itemB predB,
          HazmatLabeledItem.combine_input_and_prediction itemA predA].map
          (·.item_id)) = [] ∧
      driverRun 10 1 batch_token_estimator (fun _ => none) 3 0
        (filterProcessed [itemA, itemB]
          ([HazmatLabeledItem.combine_input_and_prediction itemB predB,
            HazmatLabeledItem.combine_input_and_prediction itemA predA].map
            (·.item_id))) [] = .done []) :=
  ⟨by decide, by decide, rfl,
   c7_resume_idempotent 10 100000 batch_token_estimator
     (fun _ => some [predA, predB]) 10 1 batch_token_estimator
     (fun _ => none) 5 3 0 [itemA, itemB] _ (by decide) (by decide) rfl⟩
